import Mathlib

/-!
Verification development for the geoguessr-analyzer data pipeline.

The Python source is shallowly embedded:
* JSON values are the inductive `JVal` (JSON numbers appearing in the
  pipeline are integer type tags and scores, modelled as `Int`);
* `json.loads` is an abstract decoding oracle `jdecode : String → Option JVal`
  passed as an argument (decoding is a library call, not repository code);
* Python exceptions become `Except PyError`; a function that catches an
  exception and returns a value is total on that path;
* the SQLite tables become lists of typed rows, `INSERT OR REPLACE`
  becomes filter-out-the-conflicting-key-then-append, and a transaction
  that is rolled back restores the table that was current at call entry;
* per-row storage failures (`sqlite3.Error` raised by one `execute`) are
  modelled by a failure oracle on the row being written.
-/

/-- JSON-like values as manipulated by `process_data`
(src/data_pipeline/game_file_extraction.py). -/
inductive JVal where
  | str (s : String)
  | num (n : Int)
  | bool (b : Bool)
  | null
  | arr (items : List JVal)
  | obj (fields : List (String × JVal))

/-- Key lookup in a JSON object's field list (Python `d[k]` / `k in d`).
Python dicts have unique keys, so first-match lookup is faithful. -/
def lookupField : List (String × JVal) → String → Option JVal
  | [], _ => none
  | (k, v) :: rest, key => if k == key then some v else lookupField rest key

/-- Python equality between a JSON value and an integer literal, as used by
`payload_entry["type"] in [6, 7]` and `game_data["type"] != 1`.
In Python `True == 1` and `False == 0`; strings, lists, dicts and `None`
never equal an int. -/
def pyEqInt (v : JVal) (n : Int) : Bool :=
  match v with
  | .num m => m == n
  | .bool b => (if b then (1 : Int) else 0) == n
  | _ => false

/-- Exception kinds raised by the extraction code (messages are dropped). -/
inductive PyError where
  | keyError
  | typeError
  | valueError
  | gameDataValidationError
deriving DecidableEq

/-- Output record of `process_multiplayer_game`: the dict
`{time, game_id, game_mode, competitive_game_mode}` (values copied as-is). -/
structure MPRec where
  time : JVal
  game_id : JVal
  game_mode : JVal
  competitive_game_mode : JVal

/-- Output record of `process_singleplayer_game`. -/
structure SPRec where
  time : JVal
  game_token : JVal
  map_slug : JVal
  map_name : JVal
  points : JVal
  game_mode : JVal

/-- `GameFileExtractor.process_multiplayer_game`
(src/data_pipeline/game_file_extraction.py lines 188-254).
Checks required fields `time, type, payload`, that `payload` is a dict, and
payload fields `gameId, gameMode, competitiveGameMode`; every failure path
(KeyError / TypeError / anything else) is caught inside the function and
re-raised as `GameDataValidationError`. -/
def process_multiplayer_game (game_data : JVal) : Except PyError MPRec :=
  match game_data with
  | .obj fs =>
    match lookupField fs "time", lookupField fs "type", lookupField fs "payload" with
    | some t, some _, some pl =>
      match pl with
      | .obj pfs =>
        match lookupField pfs "gameId", lookupField pfs "gameMode",
              lookupField pfs "competitiveGameMode" with
        | some gid, some gm, some cgm =>
            .ok { time := t, game_id := gid, game_mode := gm,
                  competitive_game_mode := cgm }
        | _, _, _ => .error .gameDataValidationError
      | _ => .error .gameDataValidationError
    | _, _, _ => .error .gameDataValidationError
  | _ => .error .gameDataValidationError

/-- `GameFileExtractor.process_singleplayer_game`
(src/data_pipeline/game_file_extraction.py lines 256-326).
Checks required fields `type, time, payload`, asserts `type == 1`
(a `type` of 2 raises `ValueError`, wrapped as `GameDataValidationError`),
then checks the five payload fields.  A non-dict payload also ends in
`GameDataValidationError` (the membership test / subscript raises, and both
`except` arms wrap into the validation error). -/
def process_singleplayer_game (game_data : JVal) : Except PyError SPRec :=
  match game_data with
  | .obj fs =>
    match lookupField fs "type", lookupField fs "time", lookupField fs "payload" with
    | some tv, some t, some pl =>
      if pyEqInt tv 1 then
        match pl with
        | .obj pfs =>
          match lookupField pfs "mapSlug", lookupField pfs "mapName",
                lookupField pfs "points", lookupField pfs "gameToken",
                lookupField pfs "gameMode" with
          | some ms, some mn, some pts, some gt, some gm =>
              .ok { time := t, game_token := gt, map_slug := ms,
                    map_name := mn, points := pts, game_mode := gm }
          | _, _, _, _, _ => .error .gameDataValidationError
        | _ => .error .gameDataValidationError
      else .error .gameDataValidationError
    | _, _, _ => .error .gameDataValidationError
  | _ => .error .gameDataValidationError

/-- Outcome of handling one element of an entry's payload list. -/
inductive POut where
  | skip
  | mp (r : MPRec)
  | sp (r : SPRec)

/-- One iteration of the inner `for payload_entry in payload` loop of
`process_data` (lines 164-177): decode a string element (undecodable →
skip with a warning), subscript `payload_entry["type"]` (non-dict →
TypeError, missing key → KeyError, both raised raw here and wrapped by the
enclosing `except` of `process_data`), then dispatch on the type tag;
tags outside `{1, 2, 6, 7}` fall through with no record. -/
def process_payload_entry (jdecode : String → Option JVal) (pe : JVal) :
    Except PyError POut :=
  let decoded := match pe with
    | .str s => jdecode s
    | v => some v
  match decoded with
  | none => .ok .skip
  | some v =>
    match v with
    | .obj fs =>
      match lookupField fs "type" with
      | none => .error .keyError
      | some tv =>
        if pyEqInt tv 6 || pyEqInt tv 7 then
          (process_multiplayer_game v).map POut.mp
        else if pyEqInt tv 1 || pyEqInt tv 2 then
          (process_singleplayer_game v).map POut.sp
        else .ok .skip
    | _ => .error .typeError

/-- The inner payload loop of `process_data`, accumulating the records
produced by the elements in order; the first raised exception aborts. -/
def process_payload_list (jdecode : String → Option JVal) :
    List JVal → Except PyError (List MPRec × List SPRec)
  | [] => .ok ([], [])
  | pe :: rest => do
    let o ← process_payload_entry jdecode pe
    let (ms, ss) ← process_payload_list jdecode rest
    match o with
    | .skip => .ok (ms, ss)
    | .mp r => .ok (r :: ms, ss)
    | .sp r => .ok (ms, r :: ss)

/-- One iteration of the `for entry in entries` loop of `process_data`
(lines 131-177): decode string entries (undecodable → skip), skip non-dict
entries, raise KeyError when the top-level `type` field is absent, fetch
`payload` with default `[]`, decode a string payload (undecodable → skip).
A payload that is not a list is skipped: the source wraps a dict payload
into a one-element list, but the `continue` on line 162 sits outside the
`else` branch, so the wrapped list is discarded and the entry contributes
nothing. -/
def process_entry (jdecode : String → Option JVal) (entry : JVal) :
    Except PyError (List MPRec × List SPRec) :=
  let decoded := match entry with
    | .str s => jdecode s
    | v => some v
  match decoded with
  | none => .ok ([], [])
  | some v =>
    match v with
    | .obj fs =>
      if (lookupField fs "type").isNone then .error .keyError
      else
        let payload0 := (lookupField fs "payload").getD (.arr [])
        let payload1 := match payload0 with
          | .str s => jdecode s
          | p => some p
        match payload1 with
        | none => .ok ([], [])
        | some (.arr ps) => process_payload_list jdecode ps
        | some _ => .ok ([], [])
    | _ => .ok ([], [])

/-- The entry loop of `process_data`: contributions concatenated in order,
first raised exception aborts. -/
def process_entries (jdecode : String → Option JVal) :
    List JVal → Except PyError (List MPRec × List SPRec)
  | [] => .ok ([], [])
  | e :: rest => do
    let (m1, s1) ← process_entry jdecode e
    let (m2, s2) ← process_entries jdecode rest
    .ok (m1 ++ m2, s1 ++ s2)

/-- `GameFileExtractor.process_data`
(src/data_pipeline/game_file_extraction.py lines 80-186).
A string input is decoded (failure → TypeError); a non-dict input raises
TypeError; `data["entries"]` raises KeyError when absent; non-list entries
raise TypeError.  The whole entry loop runs inside one `try`, and any
exception raised in it is wrapped into `GameDataValidationError`, aborting
the batch with no partial result. -/
def process_data (jdecode : String → Option JVal) (data : JVal) :
    Except PyError (List MPRec × List SPRec) :=
  let decoded := match data with
    | .str s => jdecode s
    | v => some v
  match decoded with
  | none => .error .typeError
  | some v =>
    match v with
    | .obj fs =>
      match lookupField fs "entries" with
      | none => .error .keyError
      | some ev =>
        match ev with
        | .arr es =>
          match process_entries jdecode es with
          | .ok r => .ok r
          | .error _ => .error .gameDataValidationError
        | _ => .error .typeError
    | _ => .error .typeError

/-- Body of one successful feed-API response (HTTP 2xx, JSON parsed):
the optional `entries` list and the optional `paginationToken`. -/
structure FeedPage where
  entries : Option (List JVal)
  paginationToken : Option String

/-- Response to one feed request: `failure` covers a transport error,
a non-2xx status (raised by `raise_for_status`) or an unparsable body. -/
inductive FeedResponse where
  | failure
  | success (page : FeedPage)

/-- The `while True` loop of
`GameFileExtractor.fetch_game_files_from_geoguessr_api`
(src/data_pipeline/game_file_extraction.py lines 46-76), over the sequence
of responses the server gives to the successive requests.  Returns the
result of the call (`none` on any exception — the function returns `None`
with no partial entry list) together with the number of requests issued. -/
def fetchGo (acc : List JVal) :
    List FeedResponse → Option (List JVal) × Nat
  | [] => (none, 0)
  | .failure :: _ => (none, 1)
  | .success pg :: rest =>
    let acc2 := match pg.entries with
      | some es => acc ++ es
      | none => acc
    match pg.paginationToken with
    | none => (some acc2, 1)
    | some _ =>
      let r := fetchGo acc2 rest
      (r.1, r.2 + 1)

/-- `GameFileExtractor.fetch_game_files_from_geoguessr_api`
(lines 34-78): start with an empty accumulator and no pagination token. -/
def fetch_game_files_from_geoguessr_api (responses : List FeedResponse) :
    Option (List JVal) × Nat :=
  fetchGo [] responses

/-- Resolved address fields returned by the geocoding provider
(each administrative level may be absent). -/
structure GeoAddress where
  country : Option String
  region : Option String
  state : Option String
  city : Option String
deriving DecidableEq

/-- Outcome of one `geolocator.reverse` call: raise `GeocoderTimedOut`,
return a falsy location, or return a location whose raw address is given. -/
inductive GeoOutcome where
  | timeout
  | notFound
  | found (addr : GeoAddress)

/-- The result dict of `LocationEnricher.get_location_data`. -/
structure LocData where
  country : Option String
  region : Option String
  state : Option String
  city : Option String
deriving DecidableEq

/-- Python `s.split(", ")` over the accumulated characters: scan left to
right, cutting at each non-overlapping occurrence of the two-character
separator.  `acc` holds the current part, reversed. -/
def splitCommaSpace : List Char → List Char → List String
  | [], acc => [String.mk acc.reverse]
  | ',' :: ' ' :: rest, acc => String.mk acc.reverse :: splitCommaSpace rest []
  | c :: rest, acc => splitCommaSpace rest (c :: acc)

/-- `lat_lng.split(", ")`. -/
def pySplitCommaSpace (s : String) : List String :=
  splitCommaSpace s.data []

/-- `lat, lng = map(float, lat_lng.split(", "))`
(src/data_pipeline/utils/location_enricher.py line 27), with `float`
parsing abstracted as an oracle `pf` (a library call).  `none` exactly
when Python raises `ValueError`: the string does not split into exactly
two parts that both parse (unpacking a wrong-arity iterator and a failed
`float` both raise `ValueError`). -/
def parseLatLng (pf : String → Option Rat) (s : String) :
    Option (Rat × Rat) :=
  match (pySplitCommaSpace s).map pf with
  | [some a, some b] => some (a, b)
  | _ => none

/-- Observable side effects of `get_location_data`: the fixed rate-limit
sleep and the external reverse-geocoding call. -/
inductive GeoEffect where
  | sleep
  | geocodeCall (lat lng : Rat)
deriving DecidableEq

/-- Python truthiness of the `lat_lng` argument (`if not lat_lng`):
`None` and the empty string are falsy. -/
def latLngTruthy : Option String → Bool
  | none => false
  | some s => s ≠ ""

/-- `LocationEnricher.get_location_data`
(src/data_pipeline/utils/location_enricher.py lines 13-50), instrumented
with the list of effects performed, in order.  A falsy input returns
`None` immediately; a parse failure raises `ValueError` before the sleep;
both `ValueError` and `GeocoderTimedOut` are caught and produce `None`;
a falsy location or one whose address lacks a level yields `None` fields. -/
def get_location_data_traced (pf : String → Option Rat)
    (geocode : Rat → Rat → GeoOutcome) (lat_lng : Option String) :
    Option LocData × List GeoEffect :=
  if latLngTruthy lat_lng then
    let s := lat_lng.getD ""
    match parseLatLng pf s with
    | none => (none, [])
    | some (lat, lng) =>
      let effects := [GeoEffect.sleep, GeoEffect.geocodeCall lat lng]
      match geocode lat lng with
      | .timeout => (none, effects)
      | .notFound => (none, effects)
      | .found addr =>
        (some { country := addr.country, region := addr.region,
                state := addr.state, city := addr.city }, effects)
  else (none, [])

/-- `LocationEnricher.get_location_data`: the returned value alone. -/
def get_location_data (pf : String → Option Rat)
    (geocode : Rat → Rat → GeoOutcome) (lat_lng : Option String) :
    Option LocData :=
  (get_location_data_traced pf geocode lat_lng).1

/-- A multiplayer game record as handed to `insert_games`
(the dict produced by `process_multiplayer_game`, values already strings
at this point of the pipeline). -/
structure MPGame where
  game_id : String
  time : String
  game_mode : String
  competitive_game_mode : String
deriving DecidableEq

/-- A stored row of the `multiplayer_games` table
(src/data_pipeline/utils/db_manager.py lines 36-47):
`game_id` is the primary key. -/
structure MPRow where
  game_id : String
  player_id : String
  time : String
  game_mode : String
  competitive_game_mode : String
deriving DecidableEq

/-- The row written for one record by `insert_games` (lines 144-157). -/
def toRow (player_id : String) (g : MPGame) : MPRow :=
  { game_id := g.game_id, player_id := player_id, time := g.time,
    game_mode := g.game_mode,
    competitive_game_mode := g.competitive_game_mode }

/-- `INSERT OR REPLACE INTO multiplayer_games`: any existing row that
conflicts on the primary key `game_id` (which subsumes the
`UNIQUE(game_id, player_id)` constraint) is deleted, the new row added. -/
def upsertMP (t : List MPRow) (r : MPRow) : List MPRow :=
  t.filter (fun x => !(x.game_id == r.game_id)) ++ [r]

/-- Upserting a list of rows in order. -/
def insertListMP (t : List MPRow) (rs : List MPRow) : List MPRow :=
  rs.foldl upsertMP t

/-- `DatabaseManager.insert_games`
(src/data_pipeline/utils/db_manager.py lines 125-174), acting on the
`multiplayer_games` table.  `fails` is the storage-failure oracle: a row
whose `execute` raises `sqlite3.Error` is logged and skipped (`continue`
inside the per-row `try`), the loop goes on, and the single `commit` at
the end persists every row that succeeded. -/
def insert_games (player_id : String) (fails : MPGame → Bool)
    (games : List MPGame) (t : List MPRow) : List MPRow :=
  games.foldl
    (fun acc g => if fails g then acc else upsertMP acc (toRow player_id g))
    t

/-- A stored row of the raw `team_duel_rounds` table (coordinate fields
nullable, the surrogate autoincrement id not modelled). -/
structure RoundRow where
  game_id : String
  round_number : Int
  player1_guess : Option String
  player2_guess : Option String
  correct_location : String
  country_code : String
  opponent_score : Option Int
  team_score : Option Int
  heading : Int
  pitch : Int
  zoom : Int
deriving DecidableEq

/-- A stored row of `team_duel_rounds_enriched`
(src/data_pipeline/utils/db_manager.py lines 86-117). -/
structure EnrichedRow where
  game_id : String
  round_number : Int
  player1_guess : Option String
  player1_guess_country : Option String
  player1_guess_region : Option String
  player1_guess_state : Option String
  player1_guess_city : Option String
  player2_guess : Option String
  player2_guess_country : Option String
  player2_guess_region : Option String
  player2_guess_state : Option String
  player2_guess_city : Option String
  correct_location : String
  correct_location_country : Option String
  correct_location_region : Option String
  correct_location_state : Option String
  correct_location_city : Option String
  country_code : String
  opponent_score : Option Int
  team_score : Option Int
  heading : Int
  pitch : Int
  zoom : Int
deriving DecidableEq

/-- The enriched row built for one raw round inside
`enrich_team_duel_rounds` (lines 450-493): the three coordinate fields are
resolved through `LocationEnricher.get_location_data` (abstracted here as
`loc`, since the enricher's oracles are fixed for the whole call) and each
region field is `None` when the lookup returned `None`. -/
def enrichRow (loc : Option String → Option LocData) (r : RoundRow) :
    EnrichedRow :=
  let p1 := loc r.player1_guess
  let p2 := loc r.player2_guess
  let cl := loc (some r.correct_location)
  { game_id := r.game_id, round_number := r.round_number,
    player1_guess := r.player1_guess,
    player1_guess_country := p1.bind (fun l => l.country),
    player1_guess_region := p1.bind (fun l => l.region),
    player1_guess_state := p1.bind (fun l => l.state),
    player1_guess_city := p1.bind (fun l => l.city),
    player2_guess := r.player2_guess,
    player2_guess_country := p2.bind (fun l => l.country),
    player2_guess_region := p2.bind (fun l => l.region),
    player2_guess_state := p2.bind (fun l => l.state),
    player2_guess_city := p2.bind (fun l => l.city),
    correct_location := r.correct_location,
    correct_location_country := cl.bind (fun l => l.country),
    correct_location_region := cl.bind (fun l => l.region),
    correct_location_state := cl.bind (fun l => l.state),
    correct_location_city := cl.bind (fun l => l.city),
    country_code := r.country_code,
    opponent_score := r.opponent_score,
    team_score := r.team_score,
    heading := r.heading, pitch := r.pitch, zoom := r.zoom }

/-- `INSERT OR REPLACE INTO team_duel_rounds_enriched`: replacement on the
`UNIQUE(game_id, round_number)` key. -/
def upsertEnriched (t : List EnrichedRow) (r : EnrichedRow) :
    List EnrichedRow :=
  t.filter (fun x =>
    !(x.game_id == r.game_id && x.round_number == r.round_number)) ++ [r]

/-- The round loop of `DatabaseManager.enrich_team_duel_rounds`
(src/data_pipeline/utils/db_manager.py lines 435-500).  There is no
per-row `try`: the first `execute` that raises `sqlite3.Error` aborts the
loop before `conn.commit()` is reached, so the loop either finishes with
every row staged (`some`) or raises (`none`). -/
def enrichLoop (fails : EnrichedRow → Bool)
    (loc : Option String → Option LocData) :
    List RoundRow → List EnrichedRow → Option (List EnrichedRow)
  | [], acc => some acc
  | r :: rs, acc =>
    let er := enrichRow loc r
    if fails er then none else enrichLoop fails loc rs (upsertEnriched acc er)

/-- `DatabaseManager.enrich_team_duel_rounds` (lines 405-510) acting on
the enriched table, given the raw rounds read at the start of the call.
On an uncaught `sqlite3.Error` the `with sqlite3.connect(...)` block rolls
the open transaction back, the outer `except` logs and returns `False`:
the enriched table is left as it was at call entry.  Otherwise
`conn.commit()` persists every staged row and the call returns `True`. -/
def enrich_team_duel_rounds (fails : EnrichedRow → Bool)
    (loc : Option String → Option LocData) (raw : List RoundRow)
    (enr : List EnrichedRow) : Bool × List EnrichedRow :=
  match enrichLoop fails loc raw enr with
  | some acc => (true, acc)
  | none => (false, enr)

/-- One recorded guess of a team player in the duel-detail payload
(coordinates kept as the strings interpolated by the code). -/
structure DuelGuess where
  roundNumber : Int
  lat : String
  lng : String
deriving DecidableEq

/-- One player of a team in the duel-detail payload. -/
structure DuelPlayer where
  playerId : String
  guesses : List DuelGuess
deriving DecidableEq

/-- The string `f"{guess['lat']}, {guess['lng']}"`. -/
def fmtGuess (g : DuelGuess) : String := g.lat ++ ", " ++ g.lng

/-- The guess-collection loop of
`GameDataExtractor.process_team_duel_game`
(src/data_pipeline/game_data_extraction.py lines 165-174): iterate over
the tracked player's team in player order, then over each player's
guesses; a guess for the round by the tracked player overwrites
`player1_guess`, any other player's guess for the round overwrites
`player2_guess`.  There is no `break`, so later matches overwrite earlier
ones.  `guessStep` is the loop body for one guess of one player. -/
def guessStep (player_id1 : String) (player : DuelPlayer) (round_num : Int)
    (acc2 : Option String × Option String) (guess : DuelGuess) :
    Option String × Option String :=
  if guess.roundNumber == round_num then
    if player.playerId == player_id1 then
      (some (fmtGuess guess), acc2.2)
    else
      (acc2.1, some (fmtGuess guess))
  else acc2

/-- The inner `for guess in player["guesses"]` loop, for one player. -/
def playerStep (player_id1 : String) (round_num : Int)
    (acc : Option String × Option String) (player : DuelPlayer) :
    Option String × Option String :=
  player.guesses.foldl (guessStep player_id1 player round_num) acc

/-- The whole guess-collection block, starting from
`player1_guess = None; player2_guess = None`.  Returns the pair
`(player1_guess, player2_guess)` as left by the loops. -/
def collect_round_guesses (player_id1 : String) (players : List DuelPlayer)
    (round_num : Int) : Option String × Option String :=
  players.foldl (playerStep player_id1 round_num) (none, none)

/-- The non-tracked-player guesses for a round, in the order the code's
loops encounter them (team player order, then guess order). -/
def nonTrackedRoundGuesses (player_id1 : String)
    (players : List DuelPlayer) (round_num : Int) : List String :=
  (players.filter (fun p => !(p.playerId == player_id1))).flatMap
    (fun p => (p.guesses.filter (fun g => g.roundNumber == round_num)).map
      fmtGuess)

/-- Modelled from the spec: the *first* non-tracked-player guess
encountered for the round, which is what the spec says the code keeps in
`player2_guess`. -/
def firstNonTrackedGuess (player_id1 : String) (players : List DuelPlayer)
    (round_num : Int) : Option String :=
  (nonTrackedRoundGuesses player_id1 players round_num).head?

/-- `x`'s primary key occurs among the keys of `rs`. -/
def keyMem (x : MPRow) (rs : List MPRow) : Bool :=
  rs.any (fun y => x.game_id == y.game_id)

/-- A raw round row used in concrete counterexamples. -/
def cRound (n : Int) : RoundRow :=
  ⟨"g", n, none, none, "0, 0", "FR", none, none, 0, 0, 0⟩

/-- A storage-failure oracle that fails exactly on round number 2. -/
def cFailsSecond : EnrichedRow → Bool := fun er => er.round_number == 2

/-- A location resolver that finds nothing. -/
def cLocNone : Option String → Option LocData := fun _ => none

/-- A demonstration team: tracked player `"T"` plus two other players
`"A"` and `"B"`, each with one guess in round 1. -/
def demoPlayers : List DuelPlayer :=
  [⟨"T", [⟨1, "10", "11"⟩]⟩, ⟨"A", [⟨1, "20", "21"⟩]⟩,
   ⟨"B", [⟨1, "30", "31"⟩]⟩]

/-- An entry lacking the top-level `type` field, used as concrete input. -/
def demoNoTypeEntry : JVal := JVal.obj [("payload", JVal.arr [])]

/-- A multiplayer payload object whose payload dict lacks `gameId`. -/
def demoNoGameIdObj : JVal :=
  JVal.obj [("time", JVal.str "tm"), ("type", JVal.num 6),
    ("payload", JVal.obj [("gameMode", JVal.str "m")])]

/-- An entry carrying `demoNoGameIdObj` in a list payload. -/
def demoNoGameIdEntry : JVal :=
  JVal.obj [("type", JVal.num 6), ("payload", JVal.arr [demoNoGameIdObj])]

/-- The payload object's type tag equals 6 or 7 under Python equality
(`payload_entry["type"] in [6, 7]`). -/
def tag67 (p : JVal) : Bool :=
  match p with
  | .obj fs =>
    match lookupField fs "type" with
    | some tv => pyEqInt tv 6 || pyEqInt tv 7
    | none => false
  | _ => false

/-- The payload object's type tag equals 1 under Python equality. -/
def tag1 (p : JVal) : Bool :=
  match p with
  | .obj fs =>
    match lookupField fs "type" with
    | some tv => pyEqInt tv 1
    | none => false
  | _ => false

/-- A payload object the loop can process without raising: a dict with a
type tag, whose transform succeeds when the tag dispatches to one (a tag
of 2 is excluded — it always raises —, any tag outside 1, 2, 6, 7 is
fine because it is skipped). -/
def goodPayloadObj (p : JVal) : Bool :=
  match p with
  | .obj fs =>
    match lookupField fs "type" with
    | some tv =>
      if pyEqInt tv 6 || pyEqInt tv 7 then
        (process_multiplayer_game p).toOption.isSome
      else if pyEqInt tv 1 || pyEqInt tv 2 then
        pyEqInt tv 1 && (process_singleplayer_game p).toOption.isSome
      else true
    | none => false
  | _ => false

/-- An entry the loop can process without raising: a dict with a `type`
field and a payload that is a list of good payload objects. -/
def goodEntry (e : JVal) : Bool :=
  match e with
  | .obj fs =>
    (lookupField fs "type").isSome &&
      (match lookupField fs "payload" with
       | some (.arr ps) => ps.all goodPayloadObj
       | _ => false)
  | _ => false

/-- The multiplayer records one payload object contributes: exactly one
when its tag is 6 or 7, none otherwise. -/
def mpOut (p : JVal) : List MPRec :=
  if tag67 p then (process_multiplayer_game p).toOption.toList else []

/-- The single-player records one payload object contributes: exactly one
when its tag is 1, none otherwise. -/
def spOut (p : JVal) : List SPRec :=
  if tag1 p then (process_singleplayer_game p).toOption.toList else []

/-- The multiplayer records one entry contributes. -/
def entryMPs (e : JVal) : List MPRec :=
  match e with
  | .obj fs =>
    match lookupField fs "payload" with
    | some (.arr ps) => ps.flatMap mpOut
    | _ => []
  | _ => []

/-- The single-player records one entry contributes. -/
def entrySPs (e : JVal) : List SPRec :=
  match e with
  | .obj fs =>
    match lookupField fs "payload" with
    | some (.arr ps) => ps.flatMap spOut
    | _ => []
  | _ => []

/-- A well-formed multiplayer payload object (tag 6). -/
def demoMPObj : JVal :=
  JVal.obj [("time", JVal.str "tm"), ("type", JVal.num 6),
    ("payload", JVal.obj [("gameId", JVal.str "g"),
      ("gameMode", JVal.str "m"),
      ("competitiveGameMode", JVal.str "c")])]

/-- A well-formed single-player payload object (tag 1). -/
def demoSPObj : JVal :=
  JVal.obj [("type", JVal.num 1), ("time", JVal.str "ts"),
    ("payload", JVal.obj [("mapSlug", JVal.str "sl"),
      ("mapName", JVal.str "n"), ("points", JVal.num 5),
      ("gameToken", JVal.str "gt"), ("gameMode", JVal.str "gm")])]

/-- A payload object with an unknown tag. -/
def demoUnknownObj : JVal := JVal.obj [("type", JVal.num 9)]

/-- An entry whose list payload holds one multiplayer object, one
single-player object and one unknown-tag object. -/
def demoGoodEntry : JVal :=
  JVal.obj [("type", JVal.num 6),
    ("payload", JVal.arr [demoMPObj, demoSPObj, demoUnknownObj])]

/-- A payload object shaped exactly like a valid single-player one except
that its tag is 2. -/
def demoTag2Obj : JVal :=
  JVal.obj [("type", JVal.num 2), ("time", JVal.str "ts"),
    ("payload", JVal.obj [("mapSlug", JVal.str "sl"),
      ("mapName", JVal.str "n"), ("points", JVal.num 5),
      ("gameToken", JVal.str "gt"), ("gameMode", JVal.str "gm")])]

/-- An entry carrying `demoTag2Obj` in a list payload. -/
def demoTag2Entry : JVal :=
  JVal.obj [("type", JVal.num 2), ("payload", JVal.arr [demoTag2Obj])]

/-- An entry whose payload is the multiplayer payload object itself
(a dict, not a list). -/
def demoDictPayloadEntry : JVal :=
  JVal.obj [("type", JVal.num 6), ("payload", demoMPObj)]

/-- The same payload object wrapped in a one-element list. -/
def demoListPayloadEntry : JVal :=
  JVal.obj [("type", JVal.num 6), ("payload", JVal.arr [demoMPObj])]

/-- C5: for every input string, a string that does not parse as two
comma-separated numbers and a geocoder timeout both make
`get_location_data` return `None`; in neither case does an error escape to
the caller (the function is total on these paths: both `ValueError` and
`GeocoderTimedOut` are caught), so an enrichment batch continues past
unresolvable coordinates. -/
theorem get_location_data_error_tolerance (pf : String → Option Rat)
    (geocode : Rat → Rat → GeoOutcome) (s : String) :
    (parseLatLng pf s = none →
      get_location_data pf geocode (some s) = none) ∧
    (∀ lat lng, parseLatLng pf s = some (lat, lng) →
      geocode lat lng = GeoOutcome.timeout →
      get_location_data pf geocode (some s) = none) := by
  constructor
  · intro h
    by_cases ht : latLngTruthy (some s) = true
    · simp [get_location_data, get_location_data_traced, ht, h]
    · simp [get_location_data, get_location_data_traced,
        Bool.not_eq_true _ ▸ ht]
  · intro lat lng hp hg
    by_cases ht : latLngTruthy (some s) = true
    · simp [get_location_data, get_location_data_traced, ht, hp, hg]
    · simp [get_location_data, get_location_data_traced,
        Bool.not_eq_true _ ▸ ht]

/-- Witness for C5 at concrete inputs: the unparsable string `"abc"` and a
parsable string whose geocoding times out. -/
theorem get_location_data_error_tolerance_witness :
    get_location_data (fun _ => some (0 : Rat))
      (fun _ _ => GeoOutcome.timeout) (some "abc") = none ∧
    get_location_data (fun _ => some (0 : Rat))
      (fun _ _ => GeoOutcome.timeout) (some "1, 2") = none := by
  constructor
  · exact (get_location_data_error_tolerance _ _ _).1 rfl
  · exact (get_location_data_error_tolerance _ _ _).2 0 0 rfl rfl

/-- C10: a falsy coordinate input (`None` or the empty string) makes
`get_location_data` return `None` immediately, with no rate-limit sleep
and no geocoding call; and whenever any effect is performed, the input has
already parsed as two numbers and the effects are exactly the sleep
followed by the external call. -/
theorem get_location_data_lazy_effects (pf : String → Option Rat)
    (geocode : Rat → Rat → GeoOutcome) :
    (get_location_data_traced pf geocode none = (none, []) ∧
     get_location_data_traced pf geocode (some "") = (none, [])) ∧
    (∀ s, (get_location_data_traced pf geocode (some s)).2 ≠ [] →
      ∃ lat lng, parseLatLng pf s = some (lat, lng) ∧
        (get_location_data_traced pf geocode (some s)).2 =
          [GeoEffect.sleep, GeoEffect.geocodeCall lat lng]) := by
  constructor
  · constructor
    · rfl
    · simp [get_location_data_traced, latLngTruthy]
  · intro s h
    by_cases ht : latLngTruthy (some s) = true
    · cases hp : parseLatLng pf s with
      | none =>
        exfalso
        apply h
        simp [get_location_data_traced, ht, hp]
      | some q =>
        obtain ⟨lat, lng⟩ := q
        refine ⟨lat, lng, rfl, ?_⟩
        cases hg : geocode lat lng <;>
          simp [get_location_data_traced, ht, hp, hg]
    · exfalso
      apply h
      simp [get_location_data_traced, Bool.not_eq_true _ ▸ ht]

/-- Witness for C10 at concrete inputs. -/
theorem get_location_data_lazy_effects_witness :
    get_location_data_traced (fun _ => some (0 : Rat))
      (fun _ _ => GeoOutcome.notFound) none = (none, []) ∧
    ∃ lat lng,
      parseLatLng (fun _ => some (0 : Rat)) "1, 2" = some (lat, lng) ∧
      (get_location_data_traced (fun _ => some (0 : Rat))
        (fun _ _ => GeoOutcome.notFound) (some "1, 2")).2 =
        [GeoEffect.sleep, GeoEffect.geocodeCall lat lng] := by
  constructor
  · exact (get_location_data_lazy_effects _ _).1.1
  · exact (get_location_data_lazy_effects _ _).2 "1, 2" (by decide)

/-- Running the feed loop over pages that all carry a pagination token
except the last: every page's entries are accumulated in order and one
request is issued per page. -/
theorem fetchGo_pages (pages : List FeedPage) :
    ∀ acc, pages ≠ [] →
    (∀ p ∈ pages.dropLast, (p.paginationToken).isSome = true) →
    (∀ p, pages.getLast? = some p → p.paginationToken = none) →
    fetchGo acc (pages.map FeedResponse.success) =
      (some (acc ++ pages.flatMap (fun p => p.entries.getD [])),
        pages.length) := by
  induction pages with
  | nil => intro acc h; exact absurd rfl h
  | cons p ps ih =>
    intro acc _ h1 h2
    cases ps with
    | nil =>
      have ht : p.paginationToken = none := h2 p rfl
      cases he : p.entries <;> simp [fetchGo, he, ht]
    | cons q qs =>
      have hp : (p.paginationToken).isSome = true := by
        apply h1
        simp [List.dropLast]
      obtain ⟨tok, htok⟩ := Option.isSome_iff_exists.mp hp
      have h1' : ∀ r ∈ (q :: qs).dropLast,
          (r.paginationToken).isSome = true := by
        intro r hr
        apply h1
        simp [List.dropLast]
        right
        simpa [List.dropLast] using hr
      have h2' : ∀ r, (q :: qs).getLast? = some r →
          r.paginationToken = none := by
        intro r hr
        apply h2
        rw [List.getLast?_cons_cons]
        exact hr
      cases he : p.entries with
      | none =>
        have hrec := ih acc (by simp) h1' h2'
        simp only [List.map_cons, fetchGo, he, htok] at hrec ⊢
        rw [hrec]
        simp [he]
      | some es =>
        have hrec := ih (acc ++ es) (by simp) h1' h2'
        simp only [List.map_cons, fetchGo, he, htok] at hrec ⊢
        rw [hrec]
        simp [he]

/-- Running the feed loop into a failing response after a block of
successful token-carrying pages: the call fails with no partial result,
after one request per page seen. -/
theorem fetchGo_failure (good : List FeedPage) :
    ∀ acc (rest : List FeedResponse),
    (∀ p ∈ good, (p.paginationToken).isSome = true) →
    fetchGo acc (good.map FeedResponse.success ++
        FeedResponse.failure :: rest) =
      (none, good.length + 1) := by
  induction good with
  | nil => intro acc rest _; rfl
  | cons p ps ih =>
    intro acc rest h
    have hp := h p (by simp)
    obtain ⟨tok, htok⟩ := Option.isSome_iff_exists.mp hp
    cases he : p.entries with
    | none =>
      have hrec := ih acc rest (fun r hr => h r (by simp [hr]))
      simp only [List.map_cons, List.cons_append, fetchGo, he, htok,
        List.append_eq]
      rw [hrec]
      simp
    | some es =>
      have hrec := ih (acc ++ es) rest (fun r hr => h r (by simp [hr]))
      simp only [List.map_cons, List.cons_append, fetchGo, he, htok,
        List.append_eq]
      rw [hrec]
      simp

/-- C4: for every sequence of N feed pages in which each page but the last
returns a pagination token, `fetch_game_files_from_geoguessr_api` issues
exactly N requests, terminates, and returns the concatenation of all
pages' entries in page order; and any transport error or non-2xx response
(after any block of successful token-carrying pages) makes the whole call
return the failure value `none` with no partial entry list. -/
theorem fetch_game_files_pagination_and_abort :
    (∀ (pages : List FeedPage), pages ≠ [] →
      (∀ p ∈ pages.dropLast, (p.paginationToken).isSome = true) →
      (∀ p, pages.getLast? = some p → p.paginationToken = none) →
      fetch_game_files_from_geoguessr_api (pages.map FeedResponse.success) =
        (some (pages.flatMap (fun p => p.entries.getD [])),
          pages.length)) ∧
    (∀ (good : List FeedPage) (rest : List FeedResponse),
      (∀ p ∈ good, (p.paginationToken).isSome = true) →
      fetch_game_files_from_geoguessr_api
          (good.map FeedResponse.success ++ FeedResponse.failure :: rest) =
        (none, good.length + 1)) := by
  constructor
  · intro pages hne h1 h2
    have := fetchGo_pages pages [] hne h1 h2
    simpa [fetch_game_files_from_geoguessr_api] using this
  · intro good rest h
    exact fetchGo_failure good [] rest h

/-- Witness for C4: a concrete two-page feed, and a one-good-page feed
followed by a transport failure. -/
theorem fetch_game_files_pagination_and_abort_witness :
    fetch_game_files_from_geoguessr_api
        [FeedResponse.success ⟨some [JVal.num 1], some "t"⟩,
         FeedResponse.success ⟨some [JVal.num 2], none⟩] =
      (some [JVal.num 1, JVal.num 2], 2) ∧
    fetch_game_files_from_geoguessr_api
        [FeedResponse.success ⟨some [JVal.num 1], some "t"⟩,
         FeedResponse.failure] =
      (none, 2) := by
  constructor
  · have h := fetch_game_files_pagination_and_abort.1
      [⟨some [JVal.num 1], some "t"⟩, ⟨some [JVal.num 2], none⟩]
      (by simp)
      (by
        intro p hp
        simp [List.dropLast] at hp
        subst hp
        rfl)
      (by
        intro p hp
        simp [List.getLast?] at hp
        subst hp
        rfl)
    simpa using h
  · have h := fetch_game_files_pagination_and_abort.2
      [⟨some [JVal.num 1], some "t"⟩] [] (by
        intro p hp
        simp at hp
        subst hp
        rfl)
    simpa using h

/-- Upserting a batch decomposes into the untouched rows (those whose key
is not in the batch) followed by the batch's own net effect. -/
theorem insertListMP_decomp (rs : List MPRow) :
    ∀ t, insertListMP t rs =
      t.filter (fun x => !keyMem x rs) ++ insertListMP [] rs := by
  induction rs with
  | nil => intro t; simp [insertListMP, keyMem]
  | cons r rs ih =>
    intro t
    have h1 : insertListMP t (r :: rs) = insertListMP (upsertMP t r) rs := rfl
    rw [h1, ih]
    have h2 : insertListMP [] (r :: rs) = insertListMP [r] rs := rfl
    rw [h2, ih [r]]
    rw [upsertMP, List.filter_append, List.filter_filter,
      List.append_assoc]
    congr 1
    apply List.filter_congr
    intro x _
    simp [keyMem, Bool.not_or, Bool.and_comm]

/-- Every row produced by upserting a batch into the empty table carries
one of the batch's keys. -/
theorem mem_insertListMP_nil (rs : List MPRow) :
    ∀ x ∈ insertListMP [] rs, keyMem x rs = true := by
  induction rs with
  | nil => intro x hx; simp [insertListMP] at hx
  | cons r rs ih =>
    intro x hx
    have h2 : insertListMP [] (r :: rs) =
        [r].filter (fun y => !keyMem y rs) ++ insertListMP [] rs := by
      have h0 : insertListMP [] (r :: rs) = insertListMP [r] rs := rfl
      rw [h0, insertListMP_decomp]
    rw [h2] at hx
    rcases List.mem_append.mp hx with h | h
    · have hm := List.mem_filter.mp h
      have hxr : x = r := by simpa using hm.1
      subst hxr
      simp [keyMem]
    · have hk := ih x h
      simp [keyMem] at hk ⊢
      exact Or.inr hk

/-- Upserting the same batch twice is the same as upserting it once. -/
theorem insertListMP_idem (t : List MPRow) (rs : List MPRow) :
    insertListMP (insertListMP t rs) rs = insertListMP t rs := by
  rw [insertListMP_decomp rs (insertListMP t rs), insertListMP_decomp rs t,
    List.filter_append, List.filter_filter]
  have h1 : List.filter (fun x => !keyMem x rs && !keyMem x rs) t =
      List.filter (fun x => !keyMem x rs) t := by
    apply List.filter_congr
    intro x _
    simp
  have h2 : List.filter (fun x => !keyMem x rs) (insertListMP [] rs) = [] := by
    apply List.filter_eq_nil_iff.mpr
    intro a ha
    simp [mem_insertListMP_nil rs a ha]
  rw [h1, h2, List.append_nil]

/-- `insert_games` equals upserting exactly the rows whose individual
`execute` did not fail: a failing row is skipped, every other row is still
written and committed. -/
theorem insert_games_eq_insertList (pid : String) (fails : MPGame → Bool) :
    ∀ (games : List MPGame) (t : List MPRow),
    insert_games pid fails games t =
      insertListMP t ((games.filter (fun g => !fails g)).map (toRow pid)) := by
  intro games
  induction games with
  | nil => intro t; rfl
  | cons g gs ih =>
    intro t
    cases hf : fails g with
    | true =>
      have h1 : insert_games pid fails (g :: gs) t =
          insert_games pid fails gs t := by
        simp [insert_games, hf]
      rw [h1, ih]
      simp [hf]
    | false =>
      have h1 : insert_games pid fails (g :: gs) t =
          insert_games pid fails gs (upsertMP t (toRow pid g)) := by
        simp [insert_games, hf]
      rw [h1, ih]
      simp [hf, insertListMP]

/-- C7: running `insert_games` twice with the identical record set (and
the same per-row failure behaviour, which depends only on the record)
leaves the `multiplayer_games` table exactly as running it once —
insert-or-replace keyed on the primary key makes ingestion idempotent. -/
theorem insert_games_idempotent (pid : String) (fails : MPGame → Bool)
    (games : List MPGame) (t : List MPRow) :
    insert_games pid fails games (insert_games pid fails games t) =
      insert_games pid fails games t := by
  simp only [insert_games_eq_insertList]
  exact insertListMP_idem t _

/-- C8: inserting two multiplayer records with the same `game_id` but
different `player_id` values leaves exactly one stored row for that
`game_id`, and that row holds the values of the second insert — the
replacement key is `game_id` alone, not `(game_id, player_id)`. -/
theorem insert_games_key_is_game_id (pid1 pid2 : String)
    (fails : MPGame → Bool) (r1 r2 : MPGame) (t : List MPRow)
    (hkey : r1.game_id = r2.game_id) (hpid : pid1 ≠ pid2)
    (hf1 : fails r1 = false) (hf2 : fails r2 = false) :
    (insert_games pid2 fails [r2] (insert_games pid1 fails [r1] t)).filter
      (fun x => x.game_id == r2.game_id) = [toRow pid2 r2] := by
  have h1 : insert_games pid1 fails [r1] t = upsertMP t (toRow pid1 r1) := by
    simp [insert_games, hf1]
  have h2 : ∀ u, insert_games pid2 fails [r2] u =
      upsertMP u (toRow pid2 r2) := by
    intro u
    simp [insert_games, hf2]
  rw [h1, h2]
  simp [upsertMP, toRow, List.filter_append, List.filter_filter, hkey]

/-- Witness for C8 at concrete records sharing a `game_id`. -/
theorem insert_games_key_is_game_id_witness :
    (insert_games "p2" (fun _ => false) [⟨"g", "t2", "m2", "c2"⟩]
        (insert_games "p1" (fun _ => false) [⟨"g", "t1", "m1", "c1"⟩]
          [])).filter
      (fun x => x.game_id == (⟨"g", "t2", "m2", "c2"⟩ : MPGame).game_id) =
      [toRow "p2" ⟨"g", "t2", "m2", "c2"⟩] := by
  exact insert_games_key_is_game_id "p1" "p2" (fun _ => false)
    ⟨"g", "t1", "m1", "c1"⟩ ⟨"g", "t2", "m2", "c2"⟩ [] rfl
    (by decide) rfl rfl

/-- If any raw round's enriched insert fails, the round loop of
`enrich_team_duel_rounds` raises before the commit, whatever the
accumulator. -/
theorem enrichLoop_none (fails : EnrichedRow → Bool)
    (loc : Option String → Option LocData) :
    ∀ (raw : List RoundRow) (acc : List EnrichedRow) (r : RoundRow),
      r ∈ raw → fails (enrichRow loc r) = true →
      enrichLoop fails loc raw acc = none := by
  intro raw
  induction raw with
  | nil => intro acc r hr; simp at hr
  | cons r0 rs ih =>
    intro acc r hr hf
    cases h0 : fails (enrichRow loc r0) with
    | true => simp [enrichLoop, h0]
    | false =>
      rcases List.mem_cons.mp hr with h | h
      · subst h
        rw [h0] at hf
        cases hf
      · simp only [enrichLoop, h0]
        simp only [Bool.false_eq_true, if_false]
        exact ih _ r h hf

/-- C3 amended: the two multi-row writes follow different policies.
`insert_games` skips a row whose insert fails and still commits every
other row of the batch; but `enrich_team_duel_rounds` aborts on the first
storage failure — the call returns `False` and the enriched table is left
exactly as it was at call entry (nothing is committed, not even the rows
that succeeded before the failing one). -/
theorem batch_write_policies :
    (∀ (pid : String) (fails : MPGame → Bool) (games : List MPGame)
       (t : List MPRow),
      insert_games pid fails games t =
        insertListMP t ((games.filter (fun g => !fails g)).map (toRow pid))) ∧
    (∀ (fails : EnrichedRow → Bool) (loc : Option String → Option LocData)
       (raw : List RoundRow) (enr : List EnrichedRow) (r : RoundRow),
      r ∈ raw → fails (enrichRow loc r) = true →
      enrich_team_duel_rounds fails loc raw enr = (false, enr)) := by
  constructor
  · intro pid fails games t
    exact insert_games_eq_insertList pid fails games t
  · intro fails loc raw enr r hr hf
    unfold enrich_team_duel_rounds
    rw [enrichLoop_none fails loc raw enr r hr hf]

/-- Witness for C3 (amended) at concrete inputs. -/
theorem batch_write_policies_witness :
    insert_games "p" (fun _ => false) [⟨"g", "t", "m", "c"⟩] [] =
      insertListMP []
        (([⟨"g", "t", "m", "c"⟩].filter
          (fun g => !(fun _ => false) g)).map (toRow "p")) ∧
    enrich_team_duel_rounds cFailsSecond cLocNone [cRound 2] [] =
      (false, []) := by
  constructor
  · exact batch_write_policies.1 "p" (fun _ => false)
      [⟨"g", "t", "m", "c"⟩] []
  · exact batch_write_policies.2 cFailsSecond cLocNone [cRound 2] []
      (cRound 2) (List.Mem.head _) rfl

/-- Counterexample for C3 as stated: with two raw rounds of which only the
second row's insert fails, the first row's insert succeeded — yet the call
commits nothing at all (the enriched table stays empty) and reports
failure, instead of committing the row that succeeded and skipping only
the failing one. -/
theorem enrich_rollback_counterexample :
    cFailsSecond (enrichRow cLocNone (cRound 1)) = false ∧
    enrich_team_duel_rounds cFailsSecond cLocNone [cRound 1, cRound 2] [] =
      (false, []) := by
  exact ⟨rfl, rfl⟩

/-- Folding "overwrite with the latest element" keeps the last element of
the list, or the initial value when the list is empty. -/
theorem foldl_overwrite_last (l : List String) :
    ∀ init : Option String,
    l.foldl (fun _ g => some g) init =
      match l.getLast? with
      | some x => some x
      | none => init := by
  induction l with
  | nil => intro init; rfl
  | cons a l ih =>
    intro init
    cases l with
    | nil => simp
    | cons b l2 =>
      rw [List.foldl_cons, ih (some a), List.getLast?_cons_cons]
      cases hl : (b :: l2).getLast? with
      | none => exact absurd hl (by simp)
      | some x => rfl

/-- The guess loop of a tracked player never touches `player2_guess`. -/
theorem guessFold_snd_tracked (pid : String) (p : DuelPlayer) (rn : Int)
    (ht : (p.playerId == pid) = true) :
    ∀ (gs : List DuelGuess) (acc : Option String × Option String),
    (gs.foldl (guessStep pid p rn) acc).2 = acc.2 := by
  intro gs
  induction gs with
  | nil => intro acc; rfl
  | cons g gs ih =>
    intro acc
    rw [List.foldl_cons, ih]
    unfold guessStep
    split
    · simp [ht]
    · rfl

/-- The guess loop of a non-tracked player leaves `player1_guess` alone
and overwrites `player2_guess` with each of the player's matching guesses
in order. -/
theorem guessFold_nontracked (pid : String) (p : DuelPlayer) (rn : Int)
    (hn : (p.playerId == pid) = false) :
    ∀ (gs : List DuelGuess) (acc : Option String × Option String),
    gs.foldl (guessStep pid p rn) acc =
      (acc.1, ((gs.filter (fun g => g.roundNumber == rn)).map fmtGuess).foldl
        (fun _ g => some g) acc.2) := by
  intro gs
  induction gs with
  | nil => intro acc; simp
  | cons g gs ih =>
    intro acc
    rw [List.foldl_cons]
    cases hg : (g.roundNumber == rn) with
    | true =>
      have hstep : guessStep pid p rn acc g = (acc.1, some (fmtGuess g)) := by
        simp [guessStep, hg, hn]
      rw [hstep, ih]
      simp [hg]
    | false =>
      have hstep : guessStep pid p rn acc g = acc := by
        simp [guessStep, hg]
      rw [hstep, ih]
      simp [hg]

/-- Across the whole team, `player2_guess` ends as the overwrite-fold of
all non-tracked matching guesses in encounter order. -/
theorem playersFold_snd (pid : String) (rn : Int) :
    ∀ (ps : List DuelPlayer) (acc : Option String × Option String),
    (ps.foldl (playerStep pid rn) acc).2 =
      (nonTrackedRoundGuesses pid ps rn).foldl (fun _ g => some g) acc.2 := by
  intro ps
  induction ps with
  | nil => intro acc; simp [nonTrackedRoundGuesses]
  | cons p ps ih =>
    intro acc
    rw [List.foldl_cons, ih]
    cases ht : (p.playerId == pid) with
    | true =>
      have h1 : (playerStep pid rn acc p).2 = acc.2 :=
        guessFold_snd_tracked pid p rn ht p.guesses acc
      have h2 : nonTrackedRoundGuesses pid (p :: ps) rn =
          nonTrackedRoundGuesses pid ps rn := by
        simp [nonTrackedRoundGuesses, ht]
      rw [h2, h1]
    | false =>
      have h1 : playerStep pid rn acc p =
          (acc.1, ((p.guesses.filter (fun g => g.roundNumber == rn)).map
            fmtGuess).foldl (fun _ g => some g) acc.2) :=
        guessFold_nontracked pid p rn ht p.guesses acc
      have h2 : nonTrackedRoundGuesses pid (p :: ps) rn =
          ((p.guesses.filter (fun g => g.roundNumber == rn)).map fmtGuess) ++
            nonTrackedRoundGuesses pid ps rn := by
        simp [nonTrackedRoundGuesses, ht]
      rw [h1, h2, List.foldl_append]

/-- C9 amended: for every team duel payload and round, `player2_guess`
equals the *last* non-tracked-player guess encountered for that round
number in the team's player order (each later match overwrites the
previous one — the loop has no `break`), not the first. -/
theorem collect_round_guesses_keeps_last (pid : String)
    (ps : List DuelPlayer) (rn : Int) :
    (collect_round_guesses pid ps rn).2 =
      (nonTrackedRoundGuesses pid ps rn).getLast? := by
  have h := playersFold_snd pid rn ps (none, none)
  unfold collect_round_guesses
  rw [h, foldl_overwrite_last]
  cases (nonTrackedRoundGuesses pid ps rn).getLast? <;> rfl

/-- Counterexample for C9 as stated: with two non-tracked guesses in the
round, the code keeps `"B"`'s guess (the last one encountered), while the
first non-tracked-player guess encountered is `"A"`'s — they differ. -/
theorem collect_round_guesses_not_first :
    (collect_round_guesses "T" demoPlayers 1).2 = some "30, 31" ∧
    firstNonTrackedGuess "T" demoPlayers 1 = some "20, 21" ∧
    (some "30, 31" : Option String) ≠ some "20, 21" := by
  exact ⟨rfl, rfl, by decide⟩

/-- Bind on `Except` applied to a success. -/
theorem exceptBindOk {α β : Type} (a : α) (f : α → Except PyError β) :
    (Except.ok a >>= f) = f a := rfl

/-- Bind on `Except` applied to a raised exception. -/
theorem exceptBindError {α β : Type} (e : PyError)
    (f : α → Except PyError β) :
    ((Except.error e : Except PyError α) >>= f) = Except.error e := rfl

/-- If any element of a payload list raises, the whole payload loop
raises (the first raise aborts it). -/
theorem process_payload_list_err (jdecode : String → Option JVal)
    (ps : List JVal) :
    ∀ p ∈ ps, ∀ e, process_payload_entry jdecode p = .error e →
    ∃ e2, process_payload_list jdecode ps = .error e2 := by
  induction ps with
  | nil => intro p hp; simp at hp
  | cons p0 rest ih =>
    intro p hp e he
    cases h0 : process_payload_entry jdecode p0 with
    | error e0 =>
      refine ⟨e0, ?_⟩
      simp [process_payload_list, h0, exceptBindError]
    | ok o0 =>
      rcases List.mem_cons.mp hp with h | h
      · subst h
        rw [he] at h0
        cases h0
      · obtain ⟨e2, h2⟩ := ih p h e he
        refine ⟨e2, ?_⟩
        simp [process_payload_list, h0, h2, exceptBindOk, exceptBindError]

/-- An entry that is a dict with a `type` field and a list payload is
processed by the inner payload loop. -/
theorem process_entry_obj_arr (jdecode : String → Option JVal)
    (fs : List (String × JVal)) (tv : JVal) (ps : List JVal)
    (ht : lookupField fs "type" = some tv)
    (hp : lookupField fs "payload" = some (JVal.arr ps)) :
    process_entry jdecode (JVal.obj fs) = process_payload_list jdecode ps := by
  simp [process_entry, ht, hp]

/-- If any entry raises, the whole entry loop raises. -/
theorem process_entries_err (jdecode : String → Option JVal)
    (es : List JVal) :
    ∀ en ∈ es, ∀ e, process_entry jdecode en = .error e →
    ∃ e2, process_entries jdecode es = .error e2 := by
  induction es with
  | nil => intro en hen; simp at hen
  | cons e0 rest ih =>
    intro en hen e he
    cases h0 : process_entry jdecode e0 with
    | error e0v =>
      refine ⟨e0v, ?_⟩
      simp [process_entries, h0, exceptBindError]
    | ok o0 =>
      rcases List.mem_cons.mp hen with h | h
      · subst h
        rw [he] at h0
        cases h0
      · obtain ⟨e2, h2⟩ := ih en h e he
        refine ⟨e2, ?_⟩
        simp [process_entries, h0, h2, exceptBindOk, exceptBindError]

/-- `process_data` on a dict with an `entries` list runs the entry loop
inside the `try` that wraps every raise into `GameDataValidationError`. -/
theorem process_data_of_entries (jdecode : String → Option JVal)
    (fs : List (String × JVal)) (es : List JVal)
    (he : lookupField fs "entries" = some (JVal.arr es)) :
    process_data jdecode (JVal.obj fs) =
      match process_entries jdecode es with
      | .ok r => .ok r
      | .error _ => .error .gameDataValidationError := by
  simp [process_data, he]

/-- An entry without the top-level `type` field raises `KeyError`. -/
theorem process_entry_missing_type (jdecode : String → Option JVal)
    (efs : List (String × JVal)) (h : lookupField efs "type" = none) :
    process_entry jdecode (JVal.obj efs) = .error .keyError := by
  simp [process_entry, h]

/-- A multiplayer payload object whose inner payload dict lacks `gameId`
always fails validation, whatever its other fields. -/
theorem process_multiplayer_game_missing_gameId
    (pfs inner : List (String × JVal))
    (hp : lookupField pfs "payload" = some (JVal.obj inner))
    (hg : lookupField inner "gameId" = none) :
    process_multiplayer_game (JVal.obj pfs) =
      .error .gameDataValidationError := by
  cases ht : lookupField pfs "time" with
  | none => simp [process_multiplayer_game, ht]
  | some t =>
    cases hty : lookupField pfs "type" with
    | none => simp [process_multiplayer_game, ht, hty]
    | some ty => simp [process_multiplayer_game, ht, hty, hp, hg]

/-- A tag equal to 6 or 7 under Python equality is not equal to 1. -/
theorem pyEqInt_67_ne_1 (tv : JVal)
    (h : (pyEqInt tv 6 || pyEqInt tv 7) = true) : pyEqInt tv 1 = false := by
  cases tv with
  | num m =>
    simp [pyEqInt] at h ⊢
    omega
  | bool b => cases b <;> simp [pyEqInt] at h
  | str s => simp [pyEqInt] at h
  | null => simp [pyEqInt] at h
  | arr l => simp [pyEqInt] at h
  | obj l => simp [pyEqInt] at h

/-- A tag equal to 2 under Python equality is not equal to 1. -/
theorem pyEqInt_2_ne_1 (tv : JVal) (h : pyEqInt tv 2 = true) :
    pyEqInt tv 1 = false := by
  cases tv with
  | num m =>
    simp [pyEqInt] at h ⊢
    omega
  | bool b => cases b <;> simp [pyEqInt] at h
  | str s => simp [pyEqInt] at h
  | null => simp [pyEqInt] at h
  | arr l => simp [pyEqInt] at h
  | obj l => simp [pyEqInt] at h

/-- A tag equal to 2 under Python equality is not equal to 6 or 7. -/
theorem pyEqInt_2_ne_67 (tv : JVal) (h : pyEqInt tv 2 = true) :
    (pyEqInt tv 6 || pyEqInt tv 7) = false := by
  cases tv with
  | num m =>
    simp [pyEqInt] at h ⊢
    omega
  | bool b => cases b <;> simp [pyEqInt] at h
  | str s => simp [pyEqInt] at h
  | null => simp [pyEqInt] at h
  | arr l => simp [pyEqInt] at h
  | obj l => simp [pyEqInt] at h

/-- A payload object whose type tag equals 2 always fails
`process_singleplayer_game`: either a required field is missing
(`KeyError`) or the `type == 1` assertion fails (`ValueError`), and both
are wrapped into `GameDataValidationError`. -/
theorem process_singleplayer_game_tag2 (pfs : List (String × JVal))
    (tv : JVal) (ht : lookupField pfs "type" = some tv)
    (h2 : pyEqInt tv 2 = true) :
    process_singleplayer_game (JVal.obj pfs) =
      .error .gameDataValidationError := by
  have h1 : pyEqInt tv 1 = false := pyEqInt_2_ne_1 tv h2
  cases hti : lookupField pfs "time" with
  | none => simp [process_singleplayer_game, ht, hti]
  | some t =>
    cases hpl : lookupField pfs "payload" with
    | none => simp [process_singleplayer_game, ht, hti, hpl]
    | some pl => simp [process_singleplayer_game, ht, hti, hpl, h1]

/-- A payload object dispatched to the multiplayer transform whose inner
payload lacks `gameId` makes the payload-entry step raise. -/
theorem process_payload_entry_err_missing_gameId
    (jdecode : String → Option JVal) (pfs inner : List (String × JVal))
    (tv : JVal) (ht : lookupField pfs "type" = some tv)
    (h67 : (pyEqInt tv 6 || pyEqInt tv 7) = true)
    (hp : lookupField pfs "payload" = some (JVal.obj inner))
    (hg : lookupField inner "gameId" = none) :
    process_payload_entry jdecode (JVal.obj pfs) =
      .error .gameDataValidationError := by
  simp [process_payload_entry, ht, h67,
    process_multiplayer_game_missing_gameId pfs inner hp hg, Except.map]

/-- A payload object with type tag 2 makes the payload-entry step raise. -/
theorem process_payload_entry_err_tag2 (jdecode : String → Option JVal)
    (pfs : List (String × JVal)) (tv : JVal)
    (ht : lookupField pfs "type" = some tv) (h2 : pyEqInt tv 2 = true) :
    process_payload_entry jdecode (JVal.obj pfs) =
      .error .gameDataValidationError := by
  have h67 := pyEqInt_2_ne_67 tv h2
  have h12 : (pyEqInt tv 1 || pyEqInt tv 2) = true := by simp [h2]
  simp [process_payload_entry, ht, h67, h12,
    process_singleplayer_game_tag2 pfs tv ht h2, Except.map]

/-- C6: `process_data` raises a validation error that aborts the whole
batch (no partial result) whenever some entry — a dict — lacks the
top-level `type` field (the `KeyError` is raised before the entry is
classified and wrapped by the loop's `except` into
`GameDataValidationError`); and whenever some processed multiplayer
payload object (type tag 6 or 7, inside an entry's payload list) lacks the
`gameId` field in its payload dict. -/
theorem process_data_validation_strict :
    (∀ (jdecode : String → Option JVal) (fs : List (String × JVal))
       (es : List JVal) (e : JVal) (efs : List (String × JVal)),
      lookupField fs "entries" = some (JVal.arr es) → e ∈ es →
      e = JVal.obj efs → lookupField efs "type" = none →
      process_data jdecode (JVal.obj fs) =
        .error .gameDataValidationError) ∧
    (∀ (jdecode : String → Option JVal) (fs : List (String × JVal))
       (es : List JVal) (e : JVal) (efs : List (String × JVal))
       (ps : List JVal) (p : JVal) (pfs inner : List (String × JVal))
       (tv : JVal),
      lookupField fs "entries" = some (JVal.arr es) → e ∈ es →
      e = JVal.obj efs → (lookupField efs "type").isSome = true →
      lookupField efs "payload" = some (JVal.arr ps) → p ∈ ps →
      p = JVal.obj pfs → lookupField pfs "type" = some tv →
      (pyEqInt tv 6 || pyEqInt tv 7) = true →
      lookupField pfs "payload" = some (JVal.obj inner) →
      lookupField inner "gameId" = none →
      process_data jdecode (JVal.obj fs) =
        .error .gameDataValidationError) := by
  constructor
  · intro jdecode fs es e efs hentries hmem heq htype
    subst heq
    have h1 := process_entry_missing_type jdecode efs htype
    obtain ⟨e2, h2⟩ := process_entries_err jdecode es _ hmem _ h1
    rw [process_data_of_entries jdecode fs es hentries, h2]
  · intro jdecode fs es e efs ps p pfs inner tv hentries hmem heq htype
      hpayload hpmem hpeq htv h67 hpl hg
    subst heq
    subst hpeq
    have hppe := process_payload_entry_err_missing_gameId jdecode pfs inner
      tv htv h67 hpl hg
    obtain ⟨e1, h1⟩ := process_payload_list_err jdecode ps _ hpmem _ hppe
    obtain ⟨tv0, htv0⟩ := Option.isSome_iff_exists.mp htype
    have he := process_entry_obj_arr jdecode efs tv0 ps htv0 hpayload
    rw [h1] at he
    obtain ⟨e2, h2⟩ := process_entries_err jdecode es _ hmem _ he
    rw [process_data_of_entries jdecode fs es hentries, h2]

/-- Witness for C6 at concrete feeds. -/
theorem process_data_validation_strict_witness :
    process_data (fun _ => none)
        (JVal.obj [("entries", JVal.arr [demoNoTypeEntry])]) =
      .error .gameDataValidationError ∧
    process_data (fun _ => none)
        (JVal.obj [("entries", JVal.arr [demoNoGameIdEntry])]) =
      .error .gameDataValidationError := by
  constructor
  · exact process_data_validation_strict.1 (fun _ => none) _ _
      demoNoTypeEntry [("payload", JVal.arr [])] rfl (List.Mem.head _)
      rfl rfl
  · exact process_data_validation_strict.2 (fun _ => none) _ _
      demoNoGameIdEntry
      [("type", JVal.num 6), ("payload", JVal.arr [demoNoGameIdObj])]
      [demoNoGameIdObj] demoNoGameIdObj
      [("time", JVal.str "tm"), ("type", JVal.num 6),
        ("payload", JVal.obj [("gameMode", JVal.str "m")])]
      [("gameMode", JVal.str "m")] (JVal.num 6)
      rfl (List.Mem.head _) rfl rfl rfl (List.Mem.head _) rfl rfl rfl
      rfl rfl

/-- A good payload object is processed into exactly one multiplayer
record, exactly one single-player record, or a silent skip, matching its
contribution lists. -/
theorem process_payload_entry_good (jdecode : String → Option JVal)
    (p : JVal) (h : goodPayloadObj p = true) :
    (∃ r, process_payload_entry jdecode p = .ok (.mp r) ∧
      mpOut p = [r] ∧ spOut p = []) ∨
    (∃ r, process_payload_entry jdecode p = .ok (.sp r) ∧
      spOut p = [r] ∧ mpOut p = []) ∨
    (process_payload_entry jdecode p = .ok .skip ∧
      mpOut p = [] ∧ spOut p = []) := by
  cases p with
  | obj fs =>
    cases ht : lookupField fs "type" with
    | none => simp [goodPayloadObj, ht] at h
    | some tv =>
      simp only [goodPayloadObj, ht] at h
      cases h67 : (pyEqInt tv 6 || pyEqInt tv 7) with
      | true =>
        simp only [h67, if_true] at h
        obtain ⟨r, hr⟩ : ∃ r,
            process_multiplayer_game (JVal.obj fs) = .ok r := by
          cases hmp : process_multiplayer_game (JVal.obj fs) with
          | ok r => exact ⟨r, rfl⟩
          | error e => rw [hmp] at h; simp [Except.toOption] at h
        left
        refine ⟨r, ?_, ?_, ?_⟩
        · simp [process_payload_entry, ht, h67, hr, Except.map]
        · simp [mpOut, tag67, ht, h67, hr, Except.toOption]
        · simp [spOut, tag1, ht, pyEqInt_67_ne_1 tv h67]
      | false =>
        simp only [h67, Bool.false_eq_true, if_false] at h
        cases h12 : (pyEqInt tv 1 || pyEqInt tv 2) with
        | true =>
          simp only [h12, if_true, Bool.and_eq_true] at h
          obtain ⟨h1, hsp⟩ := h
          obtain ⟨r, hr⟩ : ∃ r,
              process_singleplayer_game (JVal.obj fs) = .ok r := by
            cases hspv : process_singleplayer_game (JVal.obj fs) with
            | ok r => exact ⟨r, rfl⟩
            | error e => rw [hspv] at hsp; simp [Except.toOption] at hsp
          right
          left
          refine ⟨r, ?_, ?_, ?_⟩
          · simp [process_payload_entry, ht, h67, h12, hr, Except.map]
          · simp [spOut, tag1, ht, h1, hr, Except.toOption]
          · simp [mpOut, tag67, ht, h67]
        | false =>
          right
          right
          have h1f : pyEqInt tv 1 = false := by
            rcases Bool.or_eq_false_iff.mp h12 with ⟨ha, _⟩
            exact ha
          refine ⟨?_, ?_, ?_⟩
          · simp [process_payload_entry, ht, h67, h12]
          · simp [mpOut, tag67, ht, h67]
          · simp [spOut, tag1, ht, h1f]
  | str s => simp [goodPayloadObj] at h
  | num n => simp [goodPayloadObj] at h
  | bool b => simp [goodPayloadObj] at h
  | null => simp [goodPayloadObj] at h
  | arr l => simp [goodPayloadObj] at h

/-- The payload loop over good objects succeeds with exactly the
per-object contributions concatenated in order. -/
theorem process_payload_list_good (jdecode : String → Option JVal)
    (ps : List JVal) (h : ps.all goodPayloadObj = true) :
    process_payload_list jdecode ps =
      .ok (ps.flatMap mpOut, ps.flatMap spOut) := by
  induction ps with
  | nil => rfl
  | cons p rest ih =>
    rw [List.all_cons, Bool.and_eq_true] at h
    obtain ⟨hp, hrest⟩ := h
    have hres := ih hrest
    rcases process_payload_entry_good jdecode p hp with
      ⟨r, he, hm, hs⟩ | ⟨r, he, hs, hm⟩ | ⟨he, hm, hs⟩ <;>
      simp [process_payload_list, he, hres, hm, hs,
        exceptBindOk, exceptBindError]

/-- A good entry contributes exactly its per-object records. -/
theorem process_entry_good (jdecode : String → Option JVal) (e : JVal)
    (h : goodEntry e = true) :
    process_entry jdecode e = .ok (entryMPs e, entrySPs e) := by
  cases e with
  | obj fs =>
    simp only [goodEntry, Bool.and_eq_true] at h
    obtain ⟨hty, hpl⟩ := h
    cases hp : lookupField fs "payload" with
    | none => rw [hp] at hpl; simp at hpl
    | some pv =>
      cases pv with
      | arr ps =>
        rw [hp] at hpl
        simp only at hpl
        obtain ⟨tv, htv⟩ := Option.isSome_iff_exists.mp hty
        rw [process_entry_obj_arr jdecode fs tv ps htv hp,
          process_payload_list_good jdecode ps hpl]
        simp [entryMPs, entrySPs, hp]
      | str s => rw [hp] at hpl; simp at hpl
      | num n => rw [hp] at hpl; simp at hpl
      | bool b => rw [hp] at hpl; simp at hpl
      | null => rw [hp] at hpl; simp at hpl
      | obj l => rw [hp] at hpl; simp at hpl
  | str s => simp [goodEntry] at h
  | num n => simp [goodEntry] at h
  | bool b => simp [goodEntry] at h
  | null => simp [goodEntry] at h
  | arr l => simp [goodEntry] at h

/-- The entry loop over good entries succeeds with the per-entry
contributions concatenated in order. -/
theorem process_entries_good (jdecode : String → Option JVal)
    (es : List JVal) (h : es.all goodEntry = true) :
    process_entries jdecode es =
      .ok (es.flatMap entryMPs, es.flatMap entrySPs) := by
  induction es with
  | nil => rfl
  | cons e rest ih =>
    rw [List.all_cons, Bool.and_eq_true] at h
    obtain ⟨he, hrest⟩ := h
    have h1 := process_entry_good jdecode e he
    have h2 := ih hrest
    simp [process_entries, h1, h2, exceptBindOk]

/-- C1 amended: for every feed entry whose payload is a list, each payload
object with type tag 6 or 7 yields exactly one multiplayer record and each
with tag 1 exactly one single-player record, in order; an object with any
tag outside 1, 2, 6, 7 yields zero records and raises no error; but a
payload object with tag 2 — dispatched to the single-player transform,
which asserts `type == 1` — raises a validation error that aborts the
whole batch instead of yielding a record. -/
theorem process_data_classification :
    (∀ (jdecode : String → Option JVal) (fs : List (String × JVal))
       (es : List JVal),
      lookupField fs "entries" = some (JVal.arr es) →
      es.all goodEntry = true →
      process_data jdecode (JVal.obj fs) =
        .ok (es.flatMap entryMPs, es.flatMap entrySPs)) ∧
    (∀ (jdecode : String → Option JVal) (fs : List (String × JVal))
       (es : List JVal) (e : JVal) (efs : List (String × JVal))
       (ps : List JVal) (p : JVal) (pfs : List (String × JVal)) (tv : JVal),
      lookupField fs "entries" = some (JVal.arr es) → e ∈ es →
      e = JVal.obj efs → (lookupField efs "type").isSome = true →
      lookupField efs "payload" = some (JVal.arr ps) → p ∈ ps →
      p = JVal.obj pfs → lookupField pfs "type" = some tv →
      pyEqInt tv 2 = true →
      process_data jdecode (JVal.obj fs) =
        .error .gameDataValidationError) := by
  constructor
  · intro jdecode fs es hentries hall
    rw [process_data_of_entries jdecode fs es hentries,
      process_entries_good jdecode es hall]
  · intro jdecode fs es e efs ps p pfs tv hentries hmem heq htype
      hpayload hpmem hpeq htv h2
    subst heq
    subst hpeq
    have hppe := process_payload_entry_err_tag2 jdecode pfs tv htv h2
    obtain ⟨e1, h1⟩ := process_payload_list_err jdecode ps _ hpmem _ hppe
    obtain ⟨tv0, htv0⟩ := Option.isSome_iff_exists.mp htype
    have he := process_entry_obj_arr jdecode efs tv0 ps htv0 hpayload
    rw [h1] at he
    obtain ⟨e2, h2x⟩ := process_entries_err jdecode es _ hmem _ he
    rw [process_data_of_entries jdecode fs es hentries, h2x]

/-- Witness for C1 (amended) at concrete feeds: one entry with a
three-object payload yields exactly one multiplayer and one single-player
record, and a tag-2 feed aborts. -/
theorem process_data_classification_witness :
    process_data (fun _ => none)
        (JVal.obj [("entries", JVal.arr [demoGoodEntry])]) =
      .ok ([{ time := JVal.str "tm", game_id := JVal.str "g",
              game_mode := JVal.str "m",
              competitive_game_mode := JVal.str "c" }],
           [{ time := JVal.str "ts", game_token := JVal.str "gt",
              map_slug := JVal.str "sl", map_name := JVal.str "n",
              points := JVal.num 5, game_mode := JVal.str "gm" }]) ∧
    process_data (fun _ => none)
        (JVal.obj [("entries", JVal.arr [demoTag2Entry])]) =
      .error .gameDataValidationError := by
  constructor
  · exact process_data_classification.1 (fun _ => none) _ [demoGoodEntry]
      rfl rfl
  · exact process_data_classification.2 (fun _ => none) _ [demoTag2Entry]
      demoTag2Entry
      [("type", JVal.num 2), ("payload", JVal.arr [demoTag2Obj])]
      [demoTag2Obj] demoTag2Obj
      [("type", JVal.num 2), ("time", JVal.str "ts"),
        ("payload", JVal.obj [("mapSlug", JVal.str "sl"),
          ("mapName", JVal.str "n"), ("points", JVal.num 5),
          ("gameToken", JVal.str "gt"), ("gameMode", JVal.str "gm")])]
      (JVal.num 2)
      rfl (List.Mem.head _) rfl rfl rfl (List.Mem.head _) rfl rfl rfl

/-- Counterexample for C1 as stated: a feed whose only payload object is a
fully well-formed single-player-shaped object with type tag 2 makes
`process_data` raise a validation error — it does not yield exactly one
single-player record with no error. -/
theorem process_data_tag2_counterexample :
    process_data (fun _ => none)
        (JVal.obj [("entries", JVal.arr [demoTag2Entry])]) =
      .error .gameDataValidationError := by
  rfl

/-- C2: the code does not process a singular dict payload like a
one-element list.  The same well-formed multiplayer payload object yields
zero records when it is the entry's payload directly (the `continue`
after the list-wrapping also runs in the dict branch, so the entry is
skipped), but exactly one record when wrapped in a one-element list —
contradicting the documented normalize-then-process behaviour. -/
theorem process_data_dict_payload_skipped :
    process_data (fun _ => none)
        (JVal.obj [("entries", JVal.arr [demoDictPayloadEntry])]) =
      .ok ([], []) ∧
    process_data (fun _ => none)
        (JVal.obj [("entries", JVal.arr [demoListPayloadEntry])]) =
      .ok ([{ time := JVal.str "tm", game_id := JVal.str "g",
              game_mode := JVal.str "m",
              competitive_game_mode := JVal.str "c" }], []) := by
  exact ⟨rfl, rfl⟩
